import Mathlib

/-!
Verification of the modal text-editing state machine ("vim emulation") of the
resto repository, `src/vim.rs`, together with the host-side pending-input
handling of `App::handle_editing_mode_key` in `src/app.rs`.

The editor widget (`tui_textarea::TextArea`) and the OS clipboard (`arboard`)
are external collaborators of the repository; they are modelled here as
explicit state values (`TextArea`, `Clipboard`) threaded through the
transition function, with semantics taken from the collaborator contract in
the specification (cursor motion, selection, cut/copy/paste, yank register).
`Vim::transition` itself is translated arm by arm, in source order, from
`src/vim.rs`; a panic (from `.unwrap()` on a failed clipboard write) is
modelled as the transition returning `none`.
-/

set_option maxHeartbeats 1000000

/-- Characters of a text line; Rust `String` contents modelled as a char list. -/
abbrev Str := List Char

/-- Key identifier of a normalized key event (`tui_textarea::Key`): the
variants inspected by `Vim::transition` are `Char`, `Esc` and `Null`; the
remaining named keys all fall through to the catch-all arm. -/
inductive Key where
  | Char (c : Char)
  | Esc
  | Null
  | Backspace
  | Enter
  | Tab
  | Delete
  | Up
  | Down
  | Left
  | Right
deriving DecidableEq, Repr

/-- Normalized key event (`tui_textarea::Input`): key plus modifier flags. -/
structure Input where
  key : Key
  ctrl : Bool
  alt : Bool
  shift : Bool
deriving DecidableEq, Repr

/-- Rust `Input::default()`: the `Null` key with no modifiers. -/
def Input.default : Input := ⟨Key.Null, false, false, false⟩

/-- Editing mode (`vim.rs` `Mode`): `Operator` carries the pending operator char. -/
inductive Mode where
  | Normal
  | Insert
  | Visual
  | Operator (c : Char)
deriving DecidableEq, Repr

/-- Whether the mode is `Operator(_)` (Rust `matches!(mode, Mode::Operator(_))`). -/
def Mode.isOperator : Mode → Bool
  | .Operator _ => true
  | _ => false

/-- Result of one transition (`vim.rs` `Transition`). -/
inductive Transition where
  | Nop
  | Mode (m : Mode)
  | Pending (i : Input)
  | Quit
deriving DecidableEq, Repr

/-- Cursor motions of the collaborator used by `Vim::transition`
(`tui_textarea::CursorMove`). -/
inductive CursorMove where
  | Back
  | Forward
  | Up
  | Down
  | Head
  | End
  | Top
  | Bottom
  | WordForward
  | WordEnd
  | WordBack
deriving DecidableEq, Repr

/-- Buffer / clipboard operations issued by `Vim::transition`; the returned
trace of a transition is a list of these. -/
inductive Op where
  | move (m : CursorMove)
  | startSelection
  | cancelSelection
  | copy
  | cut
  | paste
  | deleteLineByEnd
  | deleteNextChar
  | insertNewline
  | undo
  | redo
  | scrollDown1
  | scrollUp1
  | scrollHalfDown
  | scrollHalfUp
  | scrollPageDown
  | scrollPageUp
  | inputDefault (i : Input)
  | clipboardSet (s : Str)
deriving DecidableEq, Repr

/-- Modelled from the spec: the external TextBuffer collaborator
(`tui_textarea::TextArea`): lines of text, a cursor, an optional selection
anchor, the internal yank register, and the log of inputs forwarded verbatim
to the widget's native insert-mode handling (whose semantics the spec leaves
to the collaborator). -/
structure TextArea where
  lines : List Str
  row : Nat
  col : Nat
  selection : Option (Nat × Nat)
  yank : Str
  nativeInputs : List Input
deriving DecidableEq, Repr

/-- Line at a row (empty when out of range). -/
def TextArea.lineAt (t : TextArea) (r : Nat) : Str := t.lines.getD r []

/-- Clamp a column into a line (tui-textarea's `fit_col`). -/
def fitCol (c : Nat) (l : Str) : Nat := min c l.length

/-- Word characters for the collaborator's word motions (non-blank). -/
def isWordChar (c : Char) : Bool := !(c = ' ' || c = '\t')

/-- Modelled from the spec: index of the start of the next word strictly after
column `c` on line `l`, if any. -/
def wordStartAfter (l : Str) (c : Nat) : Option Nat :=
  (List.range l.length).find? fun j =>
    decide (c < j) && isWordChar (l.getD j ' ') && !isWordChar (l.getD (j - 1) ' ')

/-- Modelled from the spec: index of the end of the next word strictly after
column `c` on line `l`, if any. -/
def wordEndAfter (l : Str) (c : Nat) : Option Nat :=
  (List.range l.length).find? fun j =>
    decide (c < j) && isWordChar (l.getD j ' ') && !isWordChar (l.getD (j + 1) ' ')

/-- Modelled from the spec: index of the last word start strictly before
column `c` on line `l`, if any. -/
def wordStartBefore (l : Str) (c : Nat) : Option Nat :=
  ((List.range l.length).filter fun j =>
      decide (j < c) && isWordChar (l.getD j ' ') &&
        (decide (j = 0) || !isWordChar (l.getD (j - 1) ' '))).getLast?

/-- Cursor position reached by a motion, following tui-textarea's `CursorMove`
semantics (a motion that cannot move leaves the cursor in place). -/
def moveCursorPos (t : TextArea) : CursorMove → Nat × Nat
  | .Back =>
      if 0 < t.col then (t.row, t.col - 1)
      else if 0 < t.row then (t.row - 1, (t.lineAt (t.row - 1)).length)
      else (t.row, t.col)
  | .Forward =>
      if t.col < (t.lineAt t.row).length then (t.row, t.col + 1)
      else if t.row + 1 < t.lines.length then (t.row + 1, 0)
      else (t.row, t.col)
  | .Up =>
      if 0 < t.row then (t.row - 1, fitCol t.col (t.lineAt (t.row - 1)))
      else (t.row, t.col)
  | .Down =>
      if t.row + 1 < t.lines.length then (t.row + 1, fitCol t.col (t.lineAt (t.row + 1)))
      else (t.row, t.col)
  | .Head => (t.row, 0)
  | .End => (t.row, (t.lineAt t.row).length)
  | .Top => (0, fitCol t.col (t.lineAt 0))
  | .Bottom => (t.lines.length - 1, fitCol t.col (t.lineAt (t.lines.length - 1)))
  | .WordForward =>
      match wordStartAfter (t.lineAt t.row) t.col with
      | some j => (t.row, j)
      | none =>
          if t.row + 1 < t.lines.length then (t.row + 1, 0)
          else (t.row, (t.lineAt t.row).length)
  | .WordEnd =>
      match wordEndAfter (t.lineAt t.row) t.col with
      | some j => (t.row, j)
      | none =>
          if t.row + 1 < t.lines.length then (t.row + 1, 0)
          else (t.row, (t.lineAt t.row).length)
  | .WordBack =>
      match wordStartBefore (t.lineAt t.row) t.col with
      | some j => (t.row, j)
      | none =>
          if 0 < t.row then (t.row - 1, 0)
          else (t.row, 0)

/-- Order two positions so the first is not after the second. -/
def orderPos (a b : Nat × Nat) : (Nat × Nat) × (Nat × Nat) :=
  if a.1 < b.1 ∨ (a.1 = b.1 ∧ a.2 ≤ b.2) then (a, b) else (b, a)

/-- Join lines with newline characters. -/
def joinLines : List Str → Str
  | [] => []
  | [l] => l
  | l :: ls => l ++ '\n' :: joinLines ls

/-- Text between two ordered positions, end-exclusive (the character at the
end position is not included). -/
def textSlice (t : TextArea) (a b : Nat × Nat) : Str :=
  if a.1 = b.1 then ((t.lineAt a.1).drop a.2).take (b.2 - a.2)
  else
    joinLines (((t.lineAt a.1).drop a.2 :: ((t.lines.drop (a.1 + 1)).take (b.1 - a.1 - 1)))
      ++ [(t.lineAt b.1).take b.2])

/-- Lines remaining after removing the text between two ordered positions. -/
def removeRange (t : TextArea) (a b : Nat × Nat) : List Str :=
  if a.1 = b.1 then
    t.lines.set a.1 ((t.lineAt a.1).take a.2 ++ (t.lineAt a.1).drop b.2)
  else
    t.lines.take a.1 ++ ((t.lineAt a.1).take a.2 ++ (t.lineAt b.1).drop b.2)
      :: t.lines.drop (b.1 + 1)

/-- Collaborator `copy`: yank the selected text (selection anchor to cursor,
ordered, end-exclusive) without deleting it; the selection is cancelled and the
cursor moves to the start of the range. No selection: no effect. -/
def TextArea.copyOp (t : TextArea) : TextArea :=
  match t.selection with
  | none => t
  | some s =>
      let r := orderPos s (t.row, t.col)
      { t with yank := textSlice t r.1 r.2, selection := none, row := r.1.1, col := r.1.2 }

/-- Collaborator `cut`: delete the selected text into the yank register; the
selection is cancelled and the cursor moves to the start of the range. -/
def TextArea.cutOp (t : TextArea) : TextArea :=
  match t.selection with
  | none => t
  | some s =>
      let r := orderPos s (t.row, t.col)
      { t with
        yank := textSlice t r.1 r.2, lines := removeRange t r.1 r.2,
        selection := none, row := r.1.1, col := r.1.2 }

/-- Split a yanked text back into lines at newline characters. -/
def splitNL (s : Str) : List Str :=
  match s with
  | [] => [[]]
  | c :: rest =>
      let t := splitNL rest
      if c = '\n' then [] :: t
      else (c :: t.headD []) :: t.tail

/-- Collaborator `paste`: insert the yank register's text at the cursor. -/
def TextArea.pasteOp (t : TextArea) : TextArea :=
  let l := t.lineAt t.row
  let pre := l.take t.col
  let post := l.drop t.col
  match splitNL t.yank with
  | [] => t
  | [y] => { t with lines := t.lines.set t.row (pre ++ y ++ post), col := t.col + y.length }
  | y0 :: ys =>
      let yn := ys.getLastD []
      let mid := ys.dropLast
      { t with
        lines := t.lines.take t.row ++ (pre ++ y0) :: mid ++ [yn ++ post] ++ t.lines.drop (t.row + 1),
        row := t.row + ys.length, col := yn.length }

/-- Collaborator `delete_line_by_end`: delete from the cursor to the end of the
line into the yank register; at line end, delete the line break instead. -/
def TextArea.deleteLineByEndOp (t : TextArea) : TextArea :=
  let l := t.lineAt t.row
  if t.col < l.length then
    { t with lines := t.lines.set t.row (l.take t.col), yank := l.drop t.col }
  else if t.row + 1 < t.lines.length then
    { t with
      lines := t.lines.take t.row ++ (l ++ t.lineAt (t.row + 1)) :: t.lines.drop (t.row + 2),
      yank := ['\n'] }
  else t

/-- Collaborator `delete_next_char`: delete the character under the cursor;
at line end, join with the following line. -/
def TextArea.deleteNextCharOp (t : TextArea) : TextArea :=
  let l := t.lineAt t.row
  if t.col < l.length then
    { t with lines := t.lines.set t.row (l.take t.col ++ l.drop (t.col + 1)) }
  else if t.row + 1 < t.lines.length then
    { t with
      lines := t.lines.take t.row ++ (l ++ t.lineAt (t.row + 1)) :: t.lines.drop (t.row + 2) }
  else t

/-- Collaborator `insert_newline`: split the current line at the cursor. -/
def TextArea.insertNewlineOp (t : TextArea) : TextArea :=
  let l := t.lineAt t.row
  { t with
    lines := t.lines.take t.row ++ l.take t.col :: l.drop t.col :: t.lines.drop (t.row + 1),
    row := t.row + 1, col := 0 }

/-- Interpret one collaborator operation on the buffer. Scrolling only moves
the viewport (not modelled); undo/redo are collaborator capabilities whose
history the spec leaves to the widget, so they leave the modelled state
unchanged; `clipboardSet` is a clipboard (not buffer) effect recorded in the
trace. -/
def applyOp (t : TextArea) (o : Op) : TextArea :=
  match o with
  | .move m => let p := moveCursorPos t m; { t with row := p.1, col := p.2 }
  | .startSelection => { t with selection := some (t.row, t.col) }
  | .cancelSelection => { t with selection := none }
  | .copy => t.copyOp
  | .cut => t.cutOp
  | .paste => t.pasteOp
  | .deleteLineByEnd => t.deleteLineByEndOp
  | .deleteNextChar => t.deleteNextCharOp
  | .insertNewline => t.insertNewlineOp
  | .inputDefault i => { t with nativeInputs := t.nativeInputs ++ [i] }
  | _ => t

/-- Modelled from the spec: the external clipboard collaborator (`arboard`).
`fails` is true when the environment has no working clipboard, in which case
`set_text` returns an error (which `vim.rs` unwraps). -/
structure Clipboard where
  fails : Bool
  text : Str
deriving DecidableEq, Repr

/-- `Clipboard::set_text`: `none` models the `Err` case. -/
def Clipboard.setText (c : Clipboard) (s : Str) : Option Clipboard :=
  if c.fails then none else some { c with text := s }

/-- State of the Vim emulation (`vim.rs` `Vim`): the mode and the pending
input. The shared `Rc<RefCell<Clipboard>>` handle is modelled as an explicit
`Clipboard` value threaded through `transition`. -/
structure Vim where
  mode : Mode
  pending : Input
deriving DecidableEq, Repr

/-- `Vim::new`: fresh state with the given mode and a default (Null) pending
input. -/
def Vim.new (m : Mode) : Vim := ⟨m, Input.default⟩

/-- `Vim::with_pending`: replace the pending input. -/
def Vim.with_pending (v : Vim) (p : Input) : Vim := ⟨v.mode, p⟩

/-- Guard of the `gg` arm: `matches!(pending, Input { key: Key::Char('g'),
ctrl: false, .. })`. -/
def pendingIsG (p : Input) : Bool :=
  match p.key with
  | Key.Char c => c = 'g' && !p.ctrl
  | _ => false

/-- Early return carrying the full result, or fall-through to the
operator-resolution block with the buffer so far and the trace so far. -/
abbrev DispatchResult :=
  (Transition × TextArea × Clipboard × List Op) ⊕ (TextArea × List Op)

/-- Body of the `yy`/`dd`/`cc` arm (vim.rs lines 186-195): select the current
line, head to head-of-next-line, or head to line end when the cursor cannot
move down (last line). -/
def linewiseSelect (ta : TextArea) : TextArea × List Op :=
  let ta1 := applyOp (applyOp ta (.move .Head)) .startSelection
  let ta2 := applyOp ta1 (.move .Down)
  if (ta2.row, ta2.col) = (ta1.row, ta1.col) then
    (applyOp ta2 (.move .End), [.move .Head, .startSelection, .move .Down, .move .End])
  else (ta2, [.move .Head, .startSelection, .move .Down])

/-- Body of the Visual-mode `y` arm (vim.rs lines 200-205): advance the cursor
one position, copy the selection into the buffer register, then write the
yanked text to the clipboard (`none` models the `.unwrap()` panic on a failed
write). -/
def visualYank (ta : TextArea) (clip : Clipboard) :
    Option (Transition × TextArea × Clipboard × List Op) :=
  match clip.setText (applyOp (applyOp ta (.move .Forward)) .copy).yank with
  | none => none
  | some clip1 =>
      some (.Mode .Normal, applyOp (applyOp ta (.move .Forward)) .copy, clip1,
        [.move .Forward, .copy,
          .clipboardSet (applyOp (applyOp ta (.move .Forward)) .copy).yank])

/-- One motion arm that falls through to operator resolution. -/
def fallMove (ta : TextArea) (m : CursorMove) : Option DispatchResult :=
  some (.inr (applyOp ta (.move m), [.move m]))

/-- One scroll arm that falls through to operator resolution. -/
def fallScroll (ta : TextArea) (o : Op) : Option DispatchResult :=
  some (.inr (applyOp ta o, [o]))

/-- Last group of `match input` arms (vim.rs lines 186-216, reached when no
earlier arm matched): the `yy`/`dd`/`cc` linewise arm, the operator-entry arm,
the Visual-mode `y`/`d`/`c` arms, and the catch-all `Pending`. -/
def operatorArms (v : Vim) (input : Input) (c : Char) (ta : TextArea) (clip : Clipboard) :
    Option DispatchResult :=
  if input.ctrl = false ∧ v.mode = Mode.Operator c then
    some (.inr (linewiseSelect ta))
  else if input.ctrl = false ∧ (c = 'y' ∨ c = 'd' ∨ c = 'c') ∧ v.mode = Mode.Normal then
    some (.inl (.Mode (.Operator c), applyOp ta .startSelection, clip, [.startSelection]))
  else if c = 'y' ∧ input.ctrl = false ∧ v.mode = Mode.Visual then
    (visualYank ta clip).map Sum.inl
  else if c = 'd' ∧ input.ctrl = false ∧ v.mode = Mode.Visual then
    some (.inl (.Mode .Normal, applyOp (applyOp ta (.move .Forward)) .cut, clip,
      [.move .Forward, .cut]))
  else if c = 'c' ∧ input.ctrl = false ∧ v.mode = Mode.Visual then
    some (.inl (.Mode .Insert, applyOp (applyOp ta (.move .Forward)) .cut, clip,
      [.move .Forward, .cut]))
  else some (.inl (.Pending input, ta, clip, []))

/-- Selection / two-key arms of `match input` (vim.rs lines 166-185): `v`,
`V`, Visual-mode `v`, `gg`, `G`; falls through to `operatorArms`. -/
def selectArms (v : Vim) (input : Input) (c : Char) (ta : TextArea) (clip : Clipboard) :
    Option DispatchResult :=
  if c = 'v' ∧ input.ctrl = false ∧ v.mode = Mode.Normal then
    some (.inl (.Mode .Visual, applyOp ta .startSelection, clip, [.startSelection]))
  else if c = 'V' ∧ input.ctrl = false ∧ v.mode = Mode.Normal then
    some (.inl (.Mode .Visual,
      applyOp (applyOp (applyOp ta (.move .Head)) .startSelection) (.move .End), clip,
      [.move .Head, .startSelection, .move .End]))
  else if c = 'v' ∧ input.ctrl = false ∧ v.mode = Mode.Visual then
    some (.inl (.Mode .Normal, applyOp ta .cancelSelection, clip, [.cancelSelection]))
  else if c = 'g' ∧ input.ctrl = false ∧ pendingIsG v.pending = true then
    fallMove ta .Top
  else if c = 'G' ∧ input.ctrl = false then fallMove ta .Bottom
  else operatorArms v input c ta clip

/-- Scroll arms of `match input` (vim.rs lines 160-165): `Ctrl+e`, `Ctrl+y`,
`Ctrl+d`, `Ctrl+u`, `Ctrl+f`, `Ctrl+b`; falls through to `selectArms`. -/
def scrollArms (v : Vim) (input : Input) (c : Char) (ta : TextArea) (clip : Clipboard) :
    Option DispatchResult :=
  if c = 'e' ∧ input.ctrl = true then fallScroll ta .scrollDown1
  else if c = 'y' ∧ input.ctrl = true then fallScroll ta .scrollUp1
  else if c = 'd' ∧ input.ctrl = true then fallScroll ta .scrollHalfDown
  else if c = 'u' ∧ input.ctrl = true then fallScroll ta .scrollHalfUp
  else if c = 'f' ∧ input.ctrl = true then fallScroll ta .scrollPageDown
  else if c = 'b' ∧ input.ctrl = true then fallScroll ta .scrollPageUp
  else selectArms v input c ta clip

/-- Insert-entry arms of `match input` (vim.rs lines 130-159): `i a A o O I`;
falls through to `scrollArms`. -/
def insertArms (v : Vim) (input : Input) (c : Char) (ta : TextArea) (clip : Clipboard) :
    Option DispatchResult :=
  if c = 'i' then
    some (.inl (.Mode .Insert, applyOp ta .cancelSelection, clip, [.cancelSelection]))
  else if c = 'a' then
    some (.inl (.Mode .Insert, applyOp (applyOp ta .cancelSelection) (.move .Forward), clip,
      [.cancelSelection, .move .Forward]))
  else if c = 'A' then
    some (.inl (.Mode .Insert, applyOp (applyOp ta .cancelSelection) (.move .End), clip,
      [.cancelSelection, .move .End]))
  else if c = 'o' then
    some (.inl (.Mode .Insert, applyOp (applyOp ta (.move .End)) .insertNewline, clip,
      [.move .End, .insertNewline]))
  else if c = 'O' then
    some (.inl (.Mode .Insert,
      applyOp (applyOp (applyOp ta (.move .Head)) .insertNewline) (.move .Up), clip,
      [.move .Head, .insertNewline, .move .Up]))
  else if c = 'I' then
    some (.inl (.Mode .Insert, applyOp (applyOp ta .cancelSelection) (.move .Head), clip,
      [.cancelSelection, .move .Head]))
  else scrollArms v input c ta clip

/-- Editing arms of `match input` (vim.rs lines 105-129): `D C p u Ctrl+r x`;
falls through to `insertArms`. -/
def editArms (v : Vim) (input : Input) (c : Char) (ta : TextArea) (clip : Clipboard) :
    Option DispatchResult :=
  if c = 'D' then
    some (.inl (.Mode .Normal, applyOp ta .deleteLineByEnd, clip, [.deleteLineByEnd]))
  else if c = 'C' then
    some (.inl (.Mode .Insert, applyOp (applyOp ta .deleteLineByEnd) .cancelSelection, clip,
      [.deleteLineByEnd, .cancelSelection]))
  else if c = 'p' then
    some (.inl (.Mode .Normal, applyOp ta .paste, clip, [.paste]))
  else if c = 'u' ∧ input.ctrl = false then
    some (.inl (.Mode .Normal, applyOp ta .undo, clip, [.undo]))
  else if c = 'r' ∧ input.ctrl = true then
    some (.inl (.Mode .Normal, applyOp ta .redo, clip, [.redo]))
  else if c = 'x' then
    some (.inl (.Mode .Normal, applyOp ta .deleteNextChar, clip, [.deleteNextChar]))
  else insertArms v input c ta clip

/-- The `match input` block of `Vim::transition` for the shared
Normal/Visual/Operator dispatch, for a `Char c` key: the first arm group
(vim.rs lines 91-104, the plain motions `h j k l w e b 0 $`), falling through
to `editArms` and the later groups; every `if` mirrors one match arm of
`src/vim.rs`, in source order. Arms that `return` early produce `.inl`;
motion/scroll arms produce `.inr` and fall through to operator resolution. -/
def charDispatch (v : Vim) (input : Input) (c : Char) (ta : TextArea) (clip : Clipboard) :
    Option DispatchResult :=
  if c = 'h' then fallMove ta .Back
  else if c = 'j' then fallMove ta .Down
  else if c = 'k' then fallMove ta .Up
  else if c = 'l' then fallMove ta .Forward
  else if c = 'w' then fallMove ta .WordForward
  else if c = 'e' ∧ input.ctrl = false then
    if v.mode.isOperator then
      some (.inr (applyOp (applyOp ta (.move .WordEnd)) (.move .Forward),
        [.move .WordEnd, .move .Forward]))
    else some (.inr (applyOp ta (.move .WordEnd), [.move .WordEnd]))
  else if c = 'b' ∧ input.ctrl = false then fallMove ta .WordBack
  else if c = '0' then fallMove ta .Head
  else if c = '$' then fallMove ta .End
  else editArms v input c ta clip

/-- The shared Normal/Visual/Operator `match input` block, for any key. Only
`Char` keys and `Esc` (in Visual mode) match an arm; every other key reaches
the catch-all `Pending`. -/
def dispatch (v : Vim) (input : Input) (ta : TextArea) (clip : Clipboard) :
    Option DispatchResult :=
  match input.key with
  | Key.Char c => charDispatch v input c ta clip
  | Key.Esc =>
      if v.mode = Mode.Visual then
        some (.inl (.Mode .Normal, applyOp ta .cancelSelection, clip, [.cancelSelection]))
      else some (.inl (.Pending input, ta, clip, []))
  | _ => some (.inl (.Pending input, ta, clip, []))

/-- The "Handle the pending operator" block of `Vim::transition` (vim.rs lines
219-235): after a fall-through (motion or scroll) arm, resolve the pending
operator against the selection reached, if the mode is `Operator`; any other
mode falls through to `Nop`. -/
def resolveOperator (m : Mode) (ta1 : TextArea) (clip : Clipboard) (ops : List Op) :
    Option (Transition × TextArea × Clipboard × List Op) :=
  match m with
  | Mode.Operator c =>
      if c = 'y' then
        match clip.setText (applyOp ta1 .copy).yank with
        | none => none
        | some clip1 =>
            some (.Mode .Normal, applyOp ta1 .copy, clip1,
              ops ++ [.copy, .clipboardSet (applyOp ta1 .copy).yank])
      else if c = 'd' then
        some (.Mode .Normal, applyOp ta1 .cut, clip, ops ++ [.cut])
      else if c = 'c' then
        some (.Mode .Insert, applyOp ta1 .cut, clip, ops ++ [.cut])
      else some (.Nop, ta1, clip, ops)
  | _ => some (.Nop, ta1, clip, ops)

/-- `Vim::transition` of `src/vim.rs`, translated arm by arm. The result
carries the transition, the buffer and clipboard after the call, and the trace
of collaborator operations performed; `none` models a panic (the `.unwrap()`
on `Clipboard::set_text`). -/
def Vim.transition (v : Vim) (input : Input) (ta : TextArea) (clip : Clipboard) :
    Option (Transition × TextArea × Clipboard × List Op) :=
  if input.key = Key.Null then some (.Nop, ta, clip, [])
  else
    match v.mode with
    | Mode.Insert =>
        if input.key = Key.Esc ∨ (input.key = Key.Char 'c' ∧ input.ctrl = true) then
          some (.Mode .Normal, ta, clip, [])
        else
          some (.Mode .Insert, applyOp ta (.inputDefault input), clip, [.inputDefault input])
    | _ =>
        match dispatch v input ta clip with
        | none => none
        | some (.inl r) => some r
        | some (.inr (ta1, ops)) => resolveOperator v.mode ta1 clip ops

/-- The host's handling of one key while a field is being edited
(`App::handle_editing_mode_key` in `src/app.rs`): call `Vim::transition`, then
rebuild the `Vim` value according to the returned transition (`Vim::new` on a
mode change, `with_pending` on `Pending`, unchanged on `Nop` or a same-mode
result). -/
def appStep (v : Vim) (input : Input) (ta : TextArea) (clip : Clipboard) :
    Option (Vim × TextArea × Clipboard) :=
  match Vim.transition v input ta clip with
  | none => none
  | some (t, ta1, clip1, _) =>
      some (match t with
        | .Mode m => if v.mode ≠ m then Vim.new m else v
        | .Nop => v
        | .Pending i => v.with_pending i
        | .Quit => Vim.new .Normal, ta1, clip1)

/-- Run a sequence of keys through `appStep`. -/
def runKeys (v : Vim) (ks : List Input) (ta : TextArea) (clip : Clipboard) :
    Option (Vim × TextArea × Clipboard) :=
  match ks with
  | [] => some (v, ta, clip)
  | k :: rest =>
      match appStep v k ta clip with
      | none => none
      | some (v1, ta1, clip1) => runKeys v1 rest ta1 clip1

/-- Motion keys of the shared dispatch table: the arms that move the cursor
and fall through to operator resolution (`h j k l w e b 0 $ G`, and `g` when
the pending input is a plain `g`). -/
def isMotion (input : Input) (pending : Input) : Bool :=
  (input.key == Key.Char 'h') || (input.key == Key.Char 'j') || (input.key == Key.Char 'k')
    || (input.key == Key.Char 'l') || (input.key == Key.Char 'w')
    || (input.key == Key.Char '0') || (input.key == Key.Char '$')
    || (!input.ctrl
        && ((input.key == Key.Char 'e') || (input.key == Key.Char 'b')
          || (input.key == Key.Char 'G')))
    || (!input.ctrl && (input.key == Key.Char 'g') && pendingIsG pending)

/-- Shape of the transitions produced by the early-return arms of the shared
dispatch: never `Nop` or `Quit`, a `Pending` always carries the input itself,
and `Operator` mode is only entered from `Normal` with operator `y`, `d` or
`c`. -/
def inlShape (v : Vim) (input : Input) (t : Transition) : Prop :=
  match t with
  | .Nop => False
  | .Quit => False
  | .Pending i => i = input
  | .Mode m =>
      match m with
      | .Operator c => v.mode = Mode.Normal ∧ (c = 'y' ∨ c = 'd' ∨ c = 'c')
      | _ => True

theorem operatorArms_inl_shape (v : Vim) (input : Input) (c : Char) (ta : TextArea)
    (clip : Clipboard) (t : Transition) (ta1 : TextArea) (clip1 : Clipboard) (ops : List Op)
    (h : operatorArms v input c ta clip = some (.inl (t, ta1, clip1, ops))) :
    inlShape v input t := by
  unfold operatorArms visualYank at h
  repeat' split at h
  all_goals try simp_all [inlShape, Option.map_eq_some']
  all_goals (obtain ⟨rfl, -, -, -⟩ := h; simp_all [inlShape])

theorem selectArms_inl_shape (v : Vim) (input : Input) (c : Char) (ta : TextArea)
    (clip : Clipboard) (t : Transition) (ta1 : TextArea) (clip1 : Clipboard) (ops : List Op)
    (h : selectArms v input c ta clip = some (.inl (t, ta1, clip1, ops))) :
    inlShape v input t := by
  unfold selectArms fallMove at h
  repeat' split at h
  all_goals try exact operatorArms_inl_shape _ _ _ _ _ _ _ _ _ h
  all_goals try simp_all [inlShape]
  all_goals (obtain ⟨rfl, -, -, -⟩ := h; simp_all [inlShape])

theorem scrollArms_inl_shape (v : Vim) (input : Input) (c : Char) (ta : TextArea)
    (clip : Clipboard) (t : Transition) (ta1 : TextArea) (clip1 : Clipboard) (ops : List Op)
    (h : scrollArms v input c ta clip = some (.inl (t, ta1, clip1, ops))) :
    inlShape v input t := by
  unfold scrollArms fallScroll at h
  repeat' split at h
  all_goals try exact selectArms_inl_shape _ _ _ _ _ _ _ _ _ h
  all_goals try simp_all [inlShape]
  all_goals (obtain ⟨rfl, -, -, -⟩ := h; simp_all [inlShape])

theorem insertArms_inl_shape (v : Vim) (input : Input) (c : Char) (ta : TextArea)
    (clip : Clipboard) (t : Transition) (ta1 : TextArea) (clip1 : Clipboard) (ops : List Op)
    (h : insertArms v input c ta clip = some (.inl (t, ta1, clip1, ops))) :
    inlShape v input t := by
  unfold insertArms at h
  repeat' split at h
  all_goals try exact scrollArms_inl_shape _ _ _ _ _ _ _ _ _ h
  all_goals try simp_all [inlShape]
  all_goals (obtain ⟨rfl, -, -, -⟩ := h; simp_all [inlShape])

theorem editArms_inl_shape (v : Vim) (input : Input) (c : Char) (ta : TextArea)
    (clip : Clipboard) (t : Transition) (ta1 : TextArea) (clip1 : Clipboard) (ops : List Op)
    (h : editArms v input c ta clip = some (.inl (t, ta1, clip1, ops))) :
    inlShape v input t := by
  unfold editArms at h
  repeat' split at h
  all_goals try exact insertArms_inl_shape _ _ _ _ _ _ _ _ _ h
  all_goals try simp_all [inlShape]
  all_goals (obtain ⟨rfl, -, -, -⟩ := h; simp_all [inlShape])

theorem charDispatch_inl_shape (v : Vim) (input : Input) (c : Char) (ta : TextArea)
    (clip : Clipboard) (t : Transition) (ta1 : TextArea) (clip1 : Clipboard) (ops : List Op)
    (h : charDispatch v input c ta clip = some (.inl (t, ta1, clip1, ops))) :
    inlShape v input t := by
  unfold charDispatch fallMove at h
  repeat' split at h
  all_goals try exact editArms_inl_shape _ _ _ _ _ _ _ _ _ h
  all_goals try simp_all [inlShape]
  all_goals (obtain ⟨rfl, -, -, -⟩ := h; simp_all [inlShape])

theorem dispatch_inl_shape (v : Vim) (input : Input) (ta : TextArea) (clip : Clipboard)
    (t : Transition) (ta1 : TextArea) (clip1 : Clipboard) (ops : List Op)
    (h : dispatch v input ta clip = some (.inl (t, ta1, clip1, ops))) :
    inlShape v input t := by
  unfold dispatch at h
  repeat' split at h
  all_goals try exact charDispatch_inl_shape _ _ _ _ _ _ _ _ _ h
  all_goals try simp_all [inlShape]
  all_goals (obtain ⟨rfl, -, -, -⟩ := h; simp_all [inlShape])

theorem resolveOperator_shape (m : Mode) (ta1 : TextArea) (clip : Clipboard) (ops : List Op)
    (t : Transition) (ta2 : TextArea) (clip2 : Clipboard) (ops2 : List Op)
    (h : resolveOperator m ta1 clip ops = some (t, ta2, clip2, ops2)) :
    t = Transition.Nop ∨ t = Transition.Mode Mode.Normal ∨ t = Transition.Mode Mode.Insert := by
  unfold resolveOperator at h
  repeat' split at h
  all_goals simp_all

/-- Concrete key event: plain `g`. -/
def keyG : Input := ⟨Key.Char 'g', false, false, false⟩

/-- Concrete key event: plain `j`. -/
def keyJ : Input := ⟨Key.Char 'j', false, false, false⟩

/-- Concrete key event: plain `d`. -/
def keyD : Input := ⟨Key.Char 'd', false, false, false⟩

/-- Concrete key event: plain `y`. -/
def keyY : Input := ⟨Key.Char 'y', false, false, false⟩

/-- Concrete key event: plain `l`. -/
def keyL : Input := ⟨Key.Char 'l', false, false, false⟩

/-- Concrete key event: plain `z`. -/
def keyZ : Input := ⟨Key.Char 'z', false, false, false⟩

/-- Concrete key event: the `Null` key. -/
def keyNull : Input := ⟨Key.Null, false, false, false⟩

/-- A three-line buffer `a` / `b` / `c` with the cursor on the middle line. -/
def bufABC : TextArea := ⟨[['a'], ['b'], ['c']], 1, 0, none, [], []⟩

/-- A one-line buffer `abc` with a selection anchored at column 0 and the
cursor at column 1. -/
def bufSel : TextArea := ⟨[['a', 'b', 'c']], 0, 1, some (0, 0), [], []⟩

/-- A clipboard whose writes succeed. -/
def clipOK : Clipboard := ⟨false, []⟩

/-- A clipboard whose writes fail (e.g. a headless environment). -/
def clipBad : Clipboard := ⟨true, []⟩

/-- C8: calling `Vim::transition` with an input whose key is `Key::Null`
returns `Nop` and performs no side effect — buffer, clipboard and mode are
all unchanged — for every mode and every pending input. -/
theorem null_input_noop (v : Vim) (ctrl alt shift : Bool) (ta : TextArea) (clip : Clipboard) :
    Vim.transition v ⟨Key.Null, ctrl, alt, shift⟩ ta clip
      = some (Transition.Nop, ta, clip, []) := by
  unfold Vim.transition
  simp

/-- C10: for every mode, pending input and input, `Vim::transition` never
returns `Transition::Quit`: every returned transition is `Nop`, `Mode` or
`Pending`, even though the `Transition` type declares a `Quit` variant that
the hosts handle. -/
theorem transition_never_quit (v : Vim) (input : Input) (ta : TextArea) (clip : Clipboard)
    (t : Transition) (ta1 : TextArea) (clip1 : Clipboard) (ops : List Op)
    (h : Vim.transition v input ta clip = some (t, ta1, clip1, ops)) :
    t = Transition.Nop ∨ (∃ m, t = Transition.Mode m) ∨ ∃ i, t = Transition.Pending i := by
  unfold Vim.transition at h
  split at h
  · simp_all
  · split at h
    · split at h <;>
      · simp only [Option.some.injEq, Prod.mk.injEq] at h
        obtain ⟨rfl, -⟩ := h
        exact Or.inr (Or.inl ⟨_, rfl⟩)
    · rcases hd : dispatch v input ta clip with _ | (⟨t0, ta0, c0, ops0⟩ | ⟨ta0, ops0⟩) <;>
        rw [hd] at h
      · simp at h
      · have hs := dispatch_inl_shape _ _ _ _ _ _ _ _ hd
        simp only [Option.some.injEq, Prod.mk.injEq] at h
        obtain ⟨rfl, -⟩ := h
        rcases t0 with _ | m0 | i0 | _
        · simp [inlShape] at hs
        · exact Or.inr (Or.inl ⟨m0, rfl⟩)
        · exact Or.inr (Or.inr ⟨i0, rfl⟩)
        · simp [inlShape] at hs
      · rcases resolveOperator_shape _ _ _ _ _ _ _ _ h with h1 | h1 | h1
        · exact Or.inl h1
        · exact Or.inr (Or.inl ⟨_, h1⟩)
        · exact Or.inr (Or.inl ⟨_, h1⟩)

/-- C10 witness: a concrete call (Null key) returning a non-`Quit` result. -/
theorem transition_never_quit_witness :
    Transition.Nop = Transition.Nop ∨ (∃ m, Transition.Nop = Transition.Mode m)
      ∨ ∃ i, Transition.Nop = Transition.Pending i :=
  transition_never_quit ⟨Mode.Normal, Input.default⟩ keyNull bufABC clipOK
    Transition.Nop bufABC clipOK [] rfl

/-- C9: for every current mode and input, `Vim::transition` returns
`ModeChanged(Operator(op))` only when the current mode is `Normal` and `op`
is `y`, `d` or `c`; Operator mode is never entered from Insert, Visual or
Operator mode. -/
theorem operator_only_from_normal (v : Vim) (input : Input) (ta : TextArea) (clip : Clipboard)
    (c : Char) (ta1 : TextArea) (clip1 : Clipboard) (ops : List Op)
    (h : Vim.transition v input ta clip
        = some (Transition.Mode (Mode.Operator c), ta1, clip1, ops)) :
    v.mode = Mode.Normal ∧ (c = 'y' ∨ c = 'd' ∨ c = 'c') := by
  unfold Vim.transition at h
  split at h
  · simp_all
  · split at h
    · split at h <;> simp_all
    · rcases hd : dispatch v input ta clip with _ | (⟨t0, ta0, c0, ops0⟩ | ⟨ta0, ops0⟩) <;>
        rw [hd] at h
      · simp at h
      · have hs := dispatch_inl_shape _ _ _ _ _ _ _ _ hd
        simp only [Option.some.injEq, Prod.mk.injEq] at h
        obtain ⟨rfl, -⟩ := h
        simpa [inlShape] using hs
      · rcases resolveOperator_shape _ _ _ _ _ _ _ _ h with h1 | h1 | h1 <;> simp_all

/-- C9 witness: `d` in Normal mode concretely enters `Operator('d')`, and the
theorem applies to that call. -/
theorem operator_only_from_normal_witness :
    (⟨Mode.Normal, Input.default⟩ : Vim).mode = Mode.Normal
      ∧ ('d' = 'y' ∨ 'd' = 'd' ∨ 'd' = 'c') :=
  operator_only_from_normal ⟨Mode.Normal, Input.default⟩ keyD bufABC clipOK 'd'
    (applyOp bufABC Op.startSelection) clipOK [Op.startSelection] (by decide)

/-- C1: contrary to the specification's best-effort clipboard policy, a
clipboard write failure is not swallowed: both yank paths call
`Clipboard::set_text(..).unwrap()`, so with a failing clipboard the
Visual-mode `y` and the `Operator('y')` motion resolution panic out of
`Vim::transition` (modelled as the `none` result). -/
theorem clipboard_failure_panics :
    Vim.transition ⟨Mode.Visual, Input.default⟩ keyY bufSel clipBad = none ∧
    Vim.transition ⟨Mode.Operator 'y', Input.default⟩ keyL bufSel clipBad = none := by
  constructor <;> rfl

/-- C3 counterexample: the `Key::Null` input delivered in Insert mode is
neither `Esc` nor `Ctrl+c`, yet `Vim::transition` returns `Nop` — not
`ModeChanged(Insert)` — and forwards nothing to the buffer. -/
theorem insert_null_not_forwarded :
    Vim.transition ⟨Mode.Insert, Input.default⟩ keyNull bufABC clipOK
      = some (Transition.Nop, bufABC, clipOK, []) ∧
    keyNull.key ≠ Key.Esc ∧ ¬(keyNull.key = Key.Char 'c' ∧ keyNull.ctrl = true) ∧
    Transition.Nop ≠ Transition.Mode Mode.Insert := by
  exact ⟨rfl, by decide, by decide, by decide⟩

/-- C3 (amended): for every input delivered in Insert mode except `Esc`,
`Ctrl+c` and inputs whose key is `Key::Null` (which short-circuit to `Nop`),
`Vim::transition` returns `ModeChanged(Insert)` and forwards exactly that
input, unchanged, to the buffer's native text-insertion handling — no
Normal-mode cursor-motion command is performed. -/
theorem insert_forwards_other_inputs (v : Vim) (input : Input) (ta : TextArea)
    (clip : Clipboard) (hm : v.mode = Mode.Insert) (hnull : input.key ≠ Key.Null)
    (hesc : input.key ≠ Key.Esc) (hcc : ¬(input.key = Key.Char 'c' ∧ input.ctrl = true)) :
    Vim.transition v input ta clip
      = some (Transition.Mode Mode.Insert, applyOp ta (Op.inputDefault input), clip,
          [Op.inputDefault input]) := by
  unfold Vim.transition
  rw [if_neg hnull, hm]
  exact if_neg fun hor => hor.elim hesc hcc

/-- C3 amended witness: typing `z` in Insert mode is forwarded verbatim. -/
theorem insert_forwards_other_inputs_witness :
    Vim.transition ⟨Mode.Insert, Input.default⟩ keyZ bufABC clipOK
      = some (Transition.Mode Mode.Insert, applyOp bufABC (Op.inputDefault keyZ), clipOK,
          [Op.inputDefault keyZ]) :=
  insert_forwards_other_inputs ⟨Mode.Insert, Input.default⟩ keyZ bufABC clipOK rfl
    (by decide) (by decide) (by decide)

/-- C2 counterexample: starting in Normal mode with no pending input, on a
three-line buffer with the cursor on row 1, the host-level key sequence
`g g j g` (run through `App::handle_editing_mode_key`'s state update) leaves
the pending `g` in place after `gg` has resolved, and the final single `g`
moves the cursor back to the buffer top (row 0) although the `j` in between
had moved it to row 1 — so a consumed pending input is not cleared. -/
theorem pending_g_not_cleared_after_gg :
    ((runKeys ⟨Mode.Normal, Input.default⟩ [keyG, keyG] bufABC clipOK).map
        (fun r => r.1.pending) = some keyG) ∧
    ((runKeys ⟨Mode.Normal, Input.default⟩ [keyG, keyG, keyJ] bufABC clipOK).map
        (fun r => (r.1.pending, r.2.1.row)) = some (keyG, 1)) ∧
    ((runKeys ⟨Mode.Normal, Input.default⟩ [keyG, keyG, keyJ, keyG] bufABC clipOK).map
        (fun r => (r.1.pending, r.2.1.row)) = some (keyG, 0)) :=
  ⟨rfl, rfl, rfl⟩

/-- C2 (amended): the host clears the pending input only when the returned
transition changes the mode, and replaces it only when a new `Pending` is
returned; a resolved `gg` returns `Nop`, so the whole controller value —
including the pending `g` — is retained unchanged while the cursor moves to
the buffer top, and a later single `g` therefore moves to the top again. -/
theorem pending_g_retained_on_nop (v : Vim) (input : Input) (ta : TextArea) (clip : Clipboard)
    (hm : v.mode = Mode.Normal) (hp : pendingIsG v.pending = true)
    (hik : input.key = Key.Char 'g') (hic : input.ctrl = false) :
    appStep v input ta clip = some (v, applyOp ta (Op.move CursorMove.Top), clip) ∧
    (applyOp ta (Op.move CursorMove.Top)).row = 0 := by
  constructor
  · unfold appStep Vim.transition dispatch
    rw [hik, hm]
    simp [charDispatch, editArms, insertArms, scrollArms, selectArms, hic, hp, fallMove,
      resolveOperator]
  · rfl

/-- C2 amended witness: with pending `g` in Normal mode on the concrete
three-line buffer, pressing `g` keeps the controller (and its pending `g`)
unchanged and moves the cursor to row 0. -/
theorem pending_g_retained_on_nop_witness :
    appStep ⟨Mode.Normal, keyG⟩ keyG bufABC clipOK
      = some (⟨Mode.Normal, keyG⟩, applyOp bufABC (Op.move CursorMove.Top), clipOK) ∧
    (applyOp bufABC (Op.move CursorMove.Top)).row = 0 :=
  pending_g_retained_on_nop ⟨Mode.Normal, keyG⟩ keyG bufABC clipOK rfl (by decide)
    (by decide) (by decide)

theorem motion_dispatch (v : Vim) (input : Input) (ta : TextArea) (clip : Clipboard)
    (hm : isMotion input v.pending = true) :
    ∃ ta1 ops, dispatch v input ta clip = some (.inr (ta1, ops)) ∧
      ∀ o ∈ ops, ∃ m, o = Op.move m := by
  simp only [isMotion, Bool.or_eq_true, Bool.and_eq_true, Bool.not_eq_true', beq_iff_eq] at hm
  rcases hm with ((((((((h1 | h2) | h3) | h4) | h5) | h6) | h7) | ⟨hc, (he | hb) | hG⟩)
    | ⟨⟨hc, hg⟩, hp⟩)
  · exact ⟨applyOp ta (Op.move CursorMove.Back), [Op.move CursorMove.Back],
      by unfold dispatch; rw [h1]; simp [charDispatch, fallMove], by simp⟩
  · exact ⟨applyOp ta (Op.move CursorMove.Down), [Op.move CursorMove.Down],
      by unfold dispatch; rw [h2]; simp [charDispatch, fallMove], by simp⟩
  · exact ⟨applyOp ta (Op.move CursorMove.Up), [Op.move CursorMove.Up],
      by unfold dispatch; rw [h3]; simp [charDispatch, fallMove], by simp⟩
  · exact ⟨applyOp ta (Op.move CursorMove.Forward), [Op.move CursorMove.Forward],
      by unfold dispatch; rw [h4]; simp [charDispatch, fallMove], by simp⟩
  · exact ⟨applyOp ta (Op.move CursorMove.WordForward), [Op.move CursorMove.WordForward],
      by unfold dispatch; rw [h5]; simp [charDispatch, fallMove], by simp⟩
  · exact ⟨applyOp ta (Op.move CursorMove.Head), [Op.move CursorMove.Head],
      by unfold dispatch; rw [h6]; simp [charDispatch, fallMove], by simp⟩
  · exact ⟨applyOp ta (Op.move CursorMove.End), [Op.move CursorMove.End],
      by unfold dispatch; rw [h7]; simp [charDispatch, fallMove], by simp⟩
  · by_cases hop : v.mode.isOperator
    · exact ⟨applyOp (applyOp ta (Op.move CursorMove.WordEnd)) (Op.move CursorMove.Forward),
        [Op.move CursorMove.WordEnd, Op.move CursorMove.Forward],
        by unfold dispatch; rw [he]; simp [charDispatch, hc, hop], by simp⟩
    · exact ⟨applyOp ta (Op.move CursorMove.WordEnd), [Op.move CursorMove.WordEnd],
        by unfold dispatch; rw [he]; simp [charDispatch, hc, hop], by simp⟩
  · exact ⟨applyOp ta (Op.move CursorMove.WordBack), [Op.move CursorMove.WordBack],
      by unfold dispatch; rw [hb]; simp [charDispatch, hc, fallMove], by simp⟩
  · exact ⟨applyOp ta (Op.move CursorMove.Bottom), [Op.move CursorMove.Bottom],
      by unfold dispatch; rw [hG];
         simp [charDispatch, editArms, insertArms, scrollArms, selectArms, hc, fallMove],
      by simp⟩
  · exact ⟨applyOp ta (Op.move CursorMove.Top), [Op.move CursorMove.Top],
      by unfold dispatch; rw [hg];
         simp [charDispatch, editArms, insertArms, scrollArms, selectArms, hc, hp, fallMove],
      by simp⟩

/-- C5: when a motion key is handled while the mode is `Operator(op)`, the
pending operator is resolved against the resulting selection: for `op = 'y'`
(with a working clipboard) the buffer's `copy` runs and the clipboard register
ends up holding exactly the buffer's internal yank register, with result
`ModeChanged(Normal)`; for `op = 'd'` the selection is cut with result
`ModeChanged(Normal)`; for `op = 'c'` the selection is cut with result
`ModeChanged(Insert)`; and when the mode is `Normal` or `Visual` no
resolution fires — the result is `NoOp` and the trace contains only cursor
motions. -/
theorem operator_resolution_after_motion (v : Vim) (input : Input) (ta : TextArea)
    (clip : Clipboard) (hm : isMotion input v.pending = true) :
    (v.mode = Mode.Operator 'y' → clip.fails = false →
      ∃ ta1 ops, Vim.transition v input ta clip
          = some (Transition.Mode Mode.Normal, applyOp ta1 Op.copy,
              ⟨false, (applyOp ta1 Op.copy).yank⟩,
              ops ++ [Op.copy, Op.clipboardSet (applyOp ta1 Op.copy).yank])
        ∧ ∀ o ∈ ops, ∃ m, o = Op.move m) ∧
    (v.mode = Mode.Operator 'd' →
      ∃ ta1 ops, Vim.transition v input ta clip
          = some (Transition.Mode Mode.Normal, applyOp ta1 Op.cut, clip, ops ++ [Op.cut])
        ∧ ∀ o ∈ ops, ∃ m, o = Op.move m) ∧
    (v.mode = Mode.Operator 'c' →
      ∃ ta1 ops, Vim.transition v input ta clip
          = some (Transition.Mode Mode.Insert, applyOp ta1 Op.cut, clip, ops ++ [Op.cut])
        ∧ ∀ o ∈ ops, ∃ m, o = Op.move m) ∧
    ((v.mode = Mode.Normal ∨ v.mode = Mode.Visual) →
      ∃ ta1 ops, Vim.transition v input ta clip = some (Transition.Nop, ta1, clip, ops)
        ∧ ∀ o ∈ ops, ∃ m, o = Op.move m) := by
  obtain ⟨ta1, ops, hd, hmoves⟩ := motion_dispatch v input ta clip hm
  have hknull : ¬ input.key = Key.Null := by
    intro hk
    simp only [isMotion, hk] at hm
    simp [pendingIsG] at hm
  refine ⟨?_, ?_, ?_, ?_⟩
  · intro hmode hfails
    obtain ⟨cf, ct⟩ := clip
    simp only at hfails
    subst hfails
    refine ⟨ta1, ops, ?_, hmoves⟩
    unfold Vim.transition
    rw [if_neg hknull, hmode] at *
    rw [hd]
    simp [resolveOperator, Clipboard.setText]
  · intro hmode
    refine ⟨ta1, ops, ?_, hmoves⟩
    unfold Vim.transition
    rw [if_neg hknull, hmode] at *
    rw [hd]
    simp [resolveOperator]
  · intro hmode
    refine ⟨ta1, ops, ?_, hmoves⟩
    unfold Vim.transition
    rw [if_neg hknull, hmode] at *
    rw [hd]
    simp [resolveOperator]
  · intro hmode
    refine ⟨ta1, ops, ?_, hmoves⟩
    unfold Vim.transition
    rw [if_neg hknull]
    rcases hmode with hmode | hmode <;> rw [hmode] at * <;> rw [hd] <;>
      simp [resolveOperator]

/-- C5 witness: the motion `l` in `Operator('d')` mode concretely resolves the
pending delete with result `ModeChanged(Normal)`. -/
theorem operator_resolution_after_motion_witness :
    ∃ ta1 ops, Vim.transition ⟨Mode.Operator 'd', Input.default⟩ keyL bufSel clipOK
        = some (Transition.Mode Mode.Normal, applyOp ta1 Op.cut, clipOK, ops ++ [Op.cut])
      ∧ ∀ o ∈ ops, ∃ m, o = Op.move m :=
  (operator_resolution_after_motion ⟨Mode.Operator 'd', Input.default⟩ keyL bufSel clipOK
    (by decide)).2.1 rfl

/-- C6: pressing `g` (no ctrl) in Normal mode with a pending plain `g` moves
the cursor to the first line of the buffer (row 0); a single `g` whose pending
input is not a plain `g` does not touch the buffer and yields a `Pending`
transition carrying that input, to be resolved or discarded by the next key. -/
theorem gg_top_single_g_pending (v : Vim) (input : Input) (ta : TextArea) (clip : Clipboard)
    (hm : v.mode = Mode.Normal) (hik : input.key = Key.Char 'g') (hic : input.ctrl = false) :
    (pendingIsG v.pending = true →
      Vim.transition v input ta clip
        = some (Transition.Nop, applyOp ta (Op.move CursorMove.Top), clip,
            [Op.move CursorMove.Top])
      ∧ (applyOp ta (Op.move CursorMove.Top)).row = 0) ∧
    (pendingIsG v.pending = false →
      Vim.transition v input ta clip = some (Transition.Pending input, ta, clip, [])) := by
  constructor
  · intro hp
    refine ⟨?_, rfl⟩
    unfold Vim.transition dispatch
    rw [hik, hm]
    simp [charDispatch, editArms, insertArms, scrollArms, selectArms, hic, hp, fallMove,
      resolveOperator]
  · intro hp
    unfold Vim.transition dispatch
    rw [hik, hm]
    simp [charDispatch, editArms, insertArms, scrollArms, selectArms, operatorArms, hic, hp,
      hm]

/-- C6 witness: with pending `g` in Normal mode on the concrete three-line
buffer, `g` moves the cursor to row 0 with result `NoOp`. -/
theorem gg_top_single_g_pending_witness :
    (pendingIsG (⟨Mode.Normal, keyG⟩ : Vim).pending = true →
      Vim.transition ⟨Mode.Normal, keyG⟩ keyG bufABC clipOK
        = some (Transition.Nop, applyOp bufABC (Op.move CursorMove.Top), clipOK,
            [Op.move CursorMove.Top])
      ∧ (applyOp bufABC (Op.move CursorMove.Top)).row = 0) ∧
    (pendingIsG (⟨Mode.Normal, keyG⟩ : Vim).pending = false →
      Vim.transition ⟨Mode.Normal, keyG⟩ keyG bufABC clipOK
        = some (Transition.Pending keyG, bufABC, clipOK, [])) :=
  gg_top_single_g_pending ⟨Mode.Normal, keyG⟩ keyG bufABC clipOK rfl (by decide) (by decide)

/-- C7: `y` in Visual mode with an active selection first advances the cursor
one position forward (so the character under the cursor is included), then
copies the selected text — the slice between the ordered selection anchor and
the advanced cursor — into the buffer's internal yank register, writes that
same text to the clipboard register, and returns `ModeChanged(Normal)`. -/
theorem visual_y_both_registers (v : Vim) (input : Input) (ta : TextArea) (clip : Clipboard)
    (s : Nat × Nat) (hm : v.mode = Mode.Visual) (hik : input.key = Key.Char 'y')
    (hic : input.ctrl = false) (hsel : ta.selection = some s) (hclip : clip.fails = false) :
    Vim.transition v input ta clip
      = some (Transition.Mode Mode.Normal,
          applyOp (applyOp ta (Op.move CursorMove.Forward)) Op.copy,
          ⟨false, (applyOp (applyOp ta (Op.move CursorMove.Forward)) Op.copy).yank⟩,
          [Op.move CursorMove.Forward, Op.copy,
            Op.clipboardSet (applyOp (applyOp ta (Op.move CursorMove.Forward)) Op.copy).yank])
    ∧ (applyOp (applyOp ta (Op.move CursorMove.Forward)) Op.copy).yank
        = textSlice (applyOp ta (Op.move CursorMove.Forward))
            (orderPos s ((applyOp ta (Op.move CursorMove.Forward)).row,
              (applyOp ta (Op.move CursorMove.Forward)).col)).1
            (orderPos s ((applyOp ta (Op.move CursorMove.Forward)).row,
              (applyOp ta (Op.move CursorMove.Forward)).col)).2 := by
  obtain ⟨cf, ct⟩ := clip
  simp only at hclip
  subst hclip
  constructor
  · unfold Vim.transition dispatch
    rw [hik, hm]
    simp [charDispatch, editArms, insertArms, scrollArms, selectArms, operatorArms, hic, hm,
      visualYank, Clipboard.setText]
  · simp [applyOp, TextArea.copyOp, hsel]

/-- C7 witness: `y` on the concrete one-line buffer with selection anchored at
column 0 and cursor at column 1 yanks `ab` into both registers. -/
theorem visual_y_both_registers_witness :
    Vim.transition ⟨Mode.Visual, Input.default⟩ keyY bufSel clipOK
      = some (Transition.Mode Mode.Normal,
          applyOp (applyOp bufSel (Op.move CursorMove.Forward)) Op.copy,
          ⟨false, (applyOp (applyOp bufSel (Op.move CursorMove.Forward)) Op.copy).yank⟩,
          [Op.move CursorMove.Forward, Op.copy,
            Op.clipboardSet (applyOp (applyOp bufSel (Op.move CursorMove.Forward)) Op.copy).yank])
    ∧ (applyOp (applyOp bufSel (Op.move CursorMove.Forward)) Op.copy).yank
        = textSlice (applyOp bufSel (Op.move CursorMove.Forward))
            (orderPos (0, 0) ((applyOp bufSel (Op.move CursorMove.Forward)).row,
              (applyOp bufSel (Op.move CursorMove.Forward)).col)).1
            (orderPos (0, 0) ((applyOp bufSel (Op.move CursorMove.Forward)).row,
              (applyOp bufSel (Op.move CursorMove.Forward)).col)).2 :=
  visual_y_both_registers ⟨Mode.Visual, Input.default⟩ keyY bufSel clipOK (0, 0) rfl
    (by decide) (by decide) (by decide) (by decide)

theorem cutOp_full_line (t : TextArea) (r : Nat) (hsel : t.selection = some (r, 0))
    (hrow : t.row = r + 1) (hcol : t.col = 0) (hlt : r + 1 < t.lines.length) :
    t.cutOp = { t with
      yank := t.lineAt r ++ ['\n'], lines := t.lines.eraseIdx r,
      selection := none, row := r, col := 0 } := by
  have hord : orderPos (r, 0) (t.row, t.col) = ((r, 0), (r + 1, 0)) := by
    simp [orderPos, hrow, hcol, Nat.lt_succ_self]
  have hslice : textSlice t (r, 0) (r + 1, 0) = t.lineAt r ++ ['\n'] := by
    simp only [textSlice]
    rw [if_neg (by simp)]
    have h1 : r + 1 - r - 1 = 0 := by omega
    simp [h1, joinLines]
  have hrem : removeRange t (r, 0) (r + 1, 0) = t.lines.eraseIdx r := by
    simp only [removeRange]
    rw [if_neg (by simp)]
    rw [List.eraseIdx_eq_take_drop_succ, List.drop_eq_getElem_cons hlt]
    simp only [TextArea.lineAt, List.take_zero, List.drop_zero, List.nil_append]
    rw [List.getD_eq_getElem _ _ hlt]
  unfold TextArea.cutOp
  rw [hsel]
  simp only [hord, hslice, hrem]

theorem cutOp_line_to_end (t : TextArea) (r : Nat) (hsel : t.selection = some (r, 0))
    (hrow : t.row = r) (hcol : t.col = (t.lineAt r).length) :
    t.cutOp = { t with
      yank := t.lineAt r, lines := t.lines.set r [],
      selection := none, row := r, col := 0 } := by
  have hord : orderPos (r, 0) (t.row, t.col) = ((r, 0), (r, (t.lineAt r).length)) := by
    simp [orderPos, hrow, hcol]
  have hslice : textSlice t (r, 0) (r, (t.lineAt r).length) = t.lineAt r := by
    simp [textSlice]
  have hrem : removeRange t (r, 0) (r, (t.lineAt r).length) = t.lines.set r [] := by
    simp [removeRange]
  unfold TextArea.cutOp
  rw [hsel]
  simp only [hord, hslice, hrem]

/-- C4: from Normal mode, `d` starts a selection and enters `Operator('d')`;
a second `d` selects the current line (head to head-of-next-line) and cuts
it: when the cursor is not on the buffer's last line, exactly that one line is
removed (the cut text being the line plus its line break) with result
`ModeChanged(Normal)`; when the cursor is on the last line, the cut runs from
line head to line end instead, emptying the line without consuming a
preceding or following line. -/
theorem dd_cuts_one_line (v : Vim) (p2 dIn : Input) (ta : TextArea) (clip : Clipboard)
    (hm : v.mode = Mode.Normal) (hik : dIn.key = Key.Char 'd') (hic : dIn.ctrl = false) :
    Vim.transition v dIn ta clip
      = some (Transition.Mode (Mode.Operator 'd'), applyOp ta Op.startSelection, clip,
          [Op.startSelection]) ∧
    (ta.row + 1 < ta.lines.length →
      ∃ ta2, Vim.transition ⟨Mode.Operator 'd', p2⟩ dIn (applyOp ta Op.startSelection) clip
          = some (Transition.Mode Mode.Normal, ta2, clip,
              [Op.move CursorMove.Head, Op.startSelection, Op.move CursorMove.Down, Op.cut])
        ∧ ta2.lines = ta.lines.eraseIdx ta.row
        ∧ ta2.yank = ta.lineAt ta.row ++ ['\n']
        ∧ ta2.row = ta.row ∧ ta2.col = 0 ∧ ta2.selection = none) ∧
    (ta.row + 1 = ta.lines.length →
      ∃ ta2, Vim.transition ⟨Mode.Operator 'd', p2⟩ dIn (applyOp ta Op.startSelection) clip
          = some (Transition.Mode Mode.Normal, ta2, clip,
              [Op.move CursorMove.Head, Op.startSelection, Op.move CursorMove.Down,
                Op.move CursorMove.End, Op.cut])
        ∧ ta2.lines = ta.lines.set ta.row []
        ∧ ta2.yank = ta.lineAt ta.row
        ∧ ta2.row = ta.row ∧ ta2.col = 0 ∧ ta2.selection = none) := by
  have hdisp : dispatch ⟨Mode.Operator 'd', p2⟩ dIn (applyOp ta Op.startSelection) clip
      = some (.inr (linewiseSelect (applyOp ta Op.startSelection))) := by
    unfold dispatch
    rw [hik]
    simp [charDispatch, editArms, insertArms, scrollArms, selectArms, operatorArms, hic]
  have htrans : Vim.transition ⟨Mode.Operator 'd', p2⟩ dIn (applyOp ta Op.startSelection) clip
      = some (Transition.Mode Mode.Normal,
          applyOp (linewiseSelect (applyOp ta Op.startSelection)).1 Op.cut, clip,
          (linewiseSelect (applyOp ta Op.startSelection)).2 ++ [Op.cut]) := by
    unfold Vim.transition
    rw [hdisp]
    simp [hik, resolveOperator]
  refine ⟨?_, ?_, ?_⟩
  · unfold Vim.transition dispatch
    rw [hik, hm]
    simp [charDispatch, editArms, insertArms, scrollArms, selectArms, operatorArms, hic, hm]
  · intro hrow
    have hlw : linewiseSelect (applyOp ta Op.startSelection)
        = (⟨ta.lines, ta.row + 1, 0, some (ta.row, 0), ta.yank, ta.nativeInputs⟩,
            [Op.move CursorMove.Head, Op.startSelection, Op.move CursorMove.Down]) := by
      unfold linewiseSelect
      simp [applyOp, moveCursorPos, fitCol, TextArea.lineAt, hrow,
        (by omega : ¬ ta.row + 1 = ta.row)]
    refine ⟨⟨ta.lines.eraseIdx ta.row, ta.row, 0, none,
        ta.lineAt ta.row ++ ['\n'], ta.nativeInputs⟩, ?_, rfl, rfl, rfl, rfl, rfl⟩
    rw [htrans, hlw]
    have hcut := cutOp_full_line
      ⟨ta.lines, ta.row + 1, 0, some (ta.row, 0), ta.yank, ta.nativeInputs⟩
      ta.row rfl rfl rfl hrow
    simp only [applyOp]
    rw [hcut]
    simp [TextArea.lineAt]
  · intro hrow
    have hlw : linewiseSelect (applyOp ta Op.startSelection)
        = (⟨ta.lines, ta.row, (ta.lineAt ta.row).length, some (ta.row, 0), ta.yank,
              ta.nativeInputs⟩,
            [Op.move CursorMove.Head, Op.startSelection, Op.move CursorMove.Down,
              Op.move CursorMove.End]) := by
      unfold linewiseSelect
      simp [applyOp, moveCursorPos, fitCol, TextArea.lineAt,
        (by omega : ¬ ta.row + 1 < ta.lines.length),
        (by omega : ta.lines.length ≤ ta.row + 1)]
      rw [if_neg (by omega : ¬ ta.row + 1 < ta.lines.length)]
      simp [TextArea.lineAt]
    refine ⟨⟨ta.lines.set ta.row [], ta.row, 0, none, ta.lineAt ta.row, ta.nativeInputs⟩,
      ?_, rfl, rfl, rfl, rfl, rfl⟩
    rw [htrans, hlw]
    have hcut := cutOp_line_to_end
      ⟨ta.lines, ta.row, (ta.lineAt ta.row).length, some (ta.row, 0), ta.yank,
        ta.nativeInputs⟩
      ta.row rfl rfl rfl
    simp only [applyOp]
    rw [hcut]
    simp [TextArea.lineAt]

/-- C4 witness: `dd` on the concrete three-line buffer (cursor on the middle
line) enters `Operator('d')` and then removes exactly the middle line. -/
theorem dd_cuts_one_line_witness :
    Vim.transition ⟨Mode.Normal, Input.default⟩ keyD bufABC clipOK
      = some (Transition.Mode (Mode.Operator 'd'), applyOp bufABC Op.startSelection, clipOK,
          [Op.startSelection]) ∧
    (∃ ta2, Vim.transition ⟨Mode.Operator 'd', Input.default⟩ keyD
          (applyOp bufABC Op.startSelection) clipOK
        = some (Transition.Mode Mode.Normal, ta2, clipOK,
            [Op.move CursorMove.Head, Op.startSelection, Op.move CursorMove.Down, Op.cut])
      ∧ ta2.lines = bufABC.lines.eraseIdx bufABC.row
      ∧ ta2.yank = bufABC.lineAt bufABC.row ++ ['\n']
      ∧ ta2.row = bufABC.row ∧ ta2.col = 0 ∧ ta2.selection = none) :=
  have h := dd_cuts_one_line ⟨Mode.Normal, Input.default⟩ Input.default keyD bufABC clipOK
    rfl (by decide) (by decide)
  ⟨h.1, h.2.1 (by decide)⟩
